import Mathlib

/- Verification of the skill-line fill-and-swap engine (the Skills object of a
personal portfolio site, src/unnamed/part_000 lines 536-887; src/static/main.js
carries an older copy of the same logic with skill objects instead of plain
strings). The definitions below are a shallow embedding of that JavaScript:
pixel widths are integers, the DOM element for a label is a record of its CSS
class flags, and every call to Math.random is replaced by an explicit
parameter (a draw stream for fillLine, three numbers for the line / run / start
choices of findSwapCandidate, and a permutation parameter standing for
shuffleArray). -/

namespace Skills

/-- Effective pixel width of a skill label. The source reads
`this.skillWidths[skill] || 100`: a label missing from the cache and a cached
width of 0 are both falsy in JavaScript, so both fall back to 100. -/
def getSkillWidth (sw : String → Option Int) (s : String) : Int :=
  match sw s with
  | none => 100
  | some w => if w = 0 then 100 else w

/-- Model of the JavaScript float comparison `currentWidth / lineWidth >= 0.8`
from fillLine, spelled out over the integers that pixel arithmetic produces.
For a positive line width it is the exact rational comparison cw / lw >= 4/5;
for lw = 0 the JavaScript quotient is NaN (cw = 0, compares false) or
+Infinity (cw > 0, compares true); for lw < 0 the comparison flips. The
double rounding of the literal 0.8 and of the division only matters for
magnitudes far above any pixel count. -/
def jsRatioGE08 (cw lw : Int) : Bool :=
  if 0 < lw then decide (4 * lw ≤ 5 * cw)
  else if lw = 0 then decide (0 < cw)
  else decide (5 * cw ≤ 4 * lw)

/-- How the fillLine loop stopped: the attempt budget ran out (the while
condition failed) or a failed placement at or above the 80 percent
threshold hit the break. These are the only exits of the loop. -/
inductive FillStop where
  | budget
  | threshold
deriving DecidableEq

/-- Result of one fillLine run, instrumented with the loop exit, the final
accumulated width and the value of the attempts counter at exit. The extra
fields record how the source loop terminated; they do not alter it. -/
structure FillResult where
  result : List String
  currentWidth : Int
  stop : FillStop
  attemptsUsed : Nat
deriving DecidableEq

/-- The while loop of fillLine10 (part_000 lines 616-637). `fuel` is
`maxAttempts - attempts`, which decreases by exactly one per iteration;
`draws attempts % shuffled.length` models
`Math.floor(Math.random() * shuffled.length)`, which ranges over exactly the
indices of the shuffled pool. The used set of the source grows in lockstep
with `result`, so the `used.has(skill)` test is membership in `result`. -/
def fillLineGo (shuffled : List String) (w : String → Int) (gap lineWidth : Int)
    (draws : Nat → Nat) : Nat → Nat → List String → Int → FillResult
  | 0, attempts, result, currentWidth =>
    ⟨result, currentWidth, FillStop.budget, attempts⟩
  | fuel + 1, attempts, result, currentWidth =>
    let skill := shuffled.getD (draws attempts % shuffled.length) ""
    if skill ∈ result then
      fillLineGo shuffled w gap lineWidth draws fuel (attempts + 1) result currentWidth
    else
      let skillWidth := w skill
      let gapWidth : Int := if 0 < result.length then gap else 0
      let newWidth := currentWidth + gapWidth + skillWidth
      if newWidth ≤ lineWidth then
        fillLineGo shuffled w gap lineWidth draws fuel (attempts + 1)
          (result ++ [skill]) newWidth
      else if jsRatioGE08 currentWidth lineWidth then
        ⟨result, currentWidth, FillStop.threshold, attempts⟩
      else
        fillLineGo shuffled w gap lineWidth draws fuel (attempts + 1) result currentWidth

/-- fillLine (part_000 lines 606-640), instrumented. The argument `shuffled`
is the shuffled copy of the available pool (the source shuffles first and
then draws random indices; callers pass their shuffle parameter applied to
the pool). `maxAttempts = shuffled.length * 3`, attempts start at 0, the
result and accumulated width start empty. -/
def fillLineFull (shuffled : List String) (sw : String → Option Int)
    (gap lineWidth : Int) (draws : Nat → Nat) : FillResult :=
  fillLineGo shuffled (getSkillWidth sw) gap lineWidth draws
    (shuffled.length * 3) 0 [] 0

/-- fillLine as the source returns it: just the packed label sequence. -/
def fillLine (shuffled : List String) (sw : String → Option Int)
    (gap lineWidth : Int) (draws : Nat → Nat) : List String :=
  (fillLineFull shuffled sw gap lineWidth draws).result

/-- Rendered width of a packed line: sum of the label widths plus one gap
between each adjacent pair, i.e. (n - 1) gaps for n labels (0 gaps for an
empty line, via truncated subtraction). -/
def lineTotalWidth (sw : String → Option Int) (gap : Int) (l : List String) : Int :=
  (l.map (getSkillWidth sw)).sum + ((l.length - 1 : Nat) : Int) * gap

/-- Model of a rendered skill box: the label it shows and its CSS class
flags. createSkillBox gives a box the classes `skill-box fade-in`; the other
flags are the visual state tags the animation steps add and remove. -/
structure Box where
  skill : String
  visible : Bool := false
  highlighted : Bool := false
  fadingOut : Bool := false
  fadingIn : Bool := false
  fadeIn : Bool := false
deriving DecidableEq

/-- createSkillBox (part_000 lines 683-691): a fresh box carrying the label,
with classes `skill-box fade-in`. -/
def createSkillBox (skill : String) : Box :=
  { skill := skill, fadeIn := true }

/-- The mutable state of the Skills engine: the label feed, the width cache,
the layout numbers, the 4 logical lines, the rendered boxes mirroring them
one to one, the per-line locks and the swap scheduler interval. -/
structure EngineState where
  allSkills : List String
  skillWidths : String → Option Int
  gap : Int
  lineWidth : Int
  lines : List (List String)
  lineElements : List (List Box)
  lineLocks : List Bool
  schedulerRunning : Bool

/-- A swap proposal as built by findSwapCandidate: the target line, the
half-open index range [startIndex, endIndex) of the contiguous run to
remove, the labels of that run (standing for the captured removedElements,
which mirror the line one to one) and the freshly packed replacements. -/
structure SwapCandidate where
  lineIndex : Nat
  startIndex : Nat
  endIndex : Nat
  removedSkills : List String
  newSkills : List String
deriving DecidableEq

/-- The run selection of findSwapCandidate (part_000 lines 781-785):
swapCount is 1 to 3, the start position is uniform over [0, maxStart], and
endIndex is clipped to the line length. The two modulo reductions produce
exactly the ranges of the two Math.random expressions. -/
def selectRun (len r2 r3 : Nat) : Nat × Nat :=
  let swapCount := r2 % 3 + 1
  let maxStart := len - swapCount
  let startIndex := r3 % (maxStart + 1)
  (startIndex, min (startIndex + swapCount) len)

/-- The set of labels currently displayed on any line (part_000 lines
806-807), as the concatenation of the 4 lines. -/
def displayedSkills (lines : List (List String)) : List String :=
  lines.flatten

/-- The replacement pool: the global pool minus every currently displayed
label (part_000 line 808). -/
def availablePool (st : EngineState) : List String :=
  st.allSkills.filter (fun s => !(decide (s ∈ displayedSkills st.lines)))

/-- The width freed on a line by removing the run [s, e): line width minus
the width of the remaining labels, minus the gaps among the remaining
labels, minus one extra boundary gap per surviving neighbour side
(part_000 lines 789-803). -/
def swapAvailableWidth (st : EngineState) (li s e : Nat) : Int :=
  let lineSkills := st.lines.getD li []
  let remaining := lineSkills.take s ++ lineSkills.drop e
  let remainingWidth0 : Int := (remaining.map (getSkillWidth st.skillWidths)).sum
  let remainingCount := lineSkills.length - (e - s)
  let remainingWidth : Int :=
    if 1 < remainingCount then remainingWidth0 + ((remainingCount - 1 : Nat) : Int) * st.gap
    else remainingWidth0
  let extraGaps : Int :=
    (if 0 < s then 1 else 0) + (if e < lineSkills.length then 1 else 0)
  st.lineWidth - remainingWidth - extraGaps * st.gap

/-- findSwapCandidate (part_000 lines 774-816). r1, r2, r3 stand for the
three Math.random draws (line index, run length, run start); `shuffle` and
`draws` are the randomness consumed by the inner fillLine call. Returns none
when the drawn line is locked or empty, when the clipped run is empty, when
no undisplayed label exists, or when the packing of the freed width comes
back empty. -/
def findSwapCandidate (st : EngineState) (r1 r2 r3 : Nat)
    (shuffle : List String → List String) (draws : Nat → Nat) : Option SwapCandidate :=
  let lineIndex := r1 % 4
  if st.lineLocks.getD lineIndex false then none
  else
    let lineSkills := st.lines.getD lineIndex []
    if lineSkills.length = 0 then none
    else
      let se := selectRun lineSkills.length r2 r3
      if se.2 = se.1 then none
      else
        let availableWidth := swapAvailableWidth st lineIndex se.1 se.2
        let availableSkills := availablePool st
        if availableSkills.isEmpty then none
        else
          let newSkills := fillLine (shuffle availableSkills) st.skillWidths
            st.gap availableWidth draws
          if newSkills.isEmpty then none
          else
            some ⟨lineIndex, se.1, se.2,
              (lineSkills.drop se.1).take (se.2 - se.1), newSkills⟩

/-- The loop body of fillAllLines (part_000 lines 642-653): lines 0 to 3 in
order, each packed from the global pool minus everything already used in
this pass; an empty candidate pool stops the pass, leaving the remaining
lines empty. `shuffle i` and `draws i` are the randomness consumed by the
fillLine call of line i. -/
def fillAllLinesGo (allSkills : List String) (sw : String → Option Int)
    (gap lineWidth : Int) (shuffle : Nat → List String → List String)
    (draws : Nat → Nat → Nat) : Nat → List String → List (List String)
  | i, used =>
    if _h : i < 4 then
      let available := allSkills.filter (fun s => !(decide (s ∈ used)))
      if available.isEmpty then
        List.replicate (4 - i) []
      else
        let line := fillLine (shuffle i available) sw gap lineWidth (draws i)
        line :: fillAllLinesGo allSkills sw gap lineWidth shuffle draws (i + 1) (used ++ line)
    else []
termination_by i _ => 4 - i

/-- fillAllLines: the full-board fill pass starting from line 0 with an
empty used set. -/
def fillAllLines (allSkills : List String) (sw : String → Option Int)
    (gap lineWidth : Int) (shuffle : Nat → List String → List String)
    (draws : Nat → Nat → Nat) : List (List String) :=
  fillAllLinesGo allSkills sw gap lineWidth shuffle draws 0 []

/-- Apply a class change to the boxes of line li at positions [lo, hi); this
models a forEach over a captured slice of lineElements, which occupies
exactly those positions while the line lock is held. -/
def markRange (e : EngineState) (li lo hi : Nat) (f : Box → Box) : EngineState :=
  let els := e.lineElements.getD li []
  let marked := els.enum.map (fun p => if lo ≤ p.1 ∧ p.1 < hi then f p.2 else p.2)
  { e with lineElements := e.lineElements.set li marked }

/-- executeSwap (part_000 lines 818-862), up to its trailing callbacks: new
boxes are created with fade-in removed and either fading-in (animated) or
visible (instant); they are inserted where the removed run was, in both the
logical line and the rendered order; in the instant case the lock is
released at once, in the animated case it stays held for the fade-in
callbacks modelled by swapRafStep and swapFinalStep. -/
def executeSwap (e : EngineState) (c : SwapCandidate) (animated : Bool) : EngineState :=
  let newElements := c.newSkills.map (fun s =>
    { createSkillBox s with fadeIn := false, fadingIn := animated, visible := !animated })
  let lineSkills := e.lines.getD c.lineIndex []
  let lineElements := e.lineElements.getD c.lineIndex []
  let e1 := { e with
    lines := e.lines.set c.lineIndex
      (lineSkills.take c.startIndex ++ c.newSkills ++ lineSkills.drop c.endIndex),
    lineElements := e.lineElements.set c.lineIndex
      (lineElements.take c.startIndex ++ newElements ++ lineElements.drop c.endIndex) }
  if animated then e1
  else { e1 with lineLocks := e1.lineLocks.set c.lineIndex false }

/-- The synchronous part of performSwap once a candidate is found (part_000
lines 740-751): lock the line; if animations are disabled
(`Settings.animationsEnabled !== false` fails), execute the swap instantly;
otherwise highlight the run and wait for the highlight timer. -/
def performSwapStart (animationsEnabled : Bool) (e : EngineState) (c : SwapCandidate) :
    EngineState :=
  let e1 := { e with lineLocks := e.lineLocks.set c.lineIndex true }
  if !animationsEnabled then executeSwap e1 c false
  else markRange e1 c.lineIndex c.startIndex c.endIndex
    (fun b => { b with highlighted := true })

/-- The highlight-timer callback of performSwap (part_000 lines 753-761):
re-check the flag; if animations were disabled during the highlight phase,
release the lock and stop; otherwise mark the run fading-out and wait for
the fade-out timer. -/
def swapFadeOutStep (animationsEnabled : Bool) (e : EngineState) (c : SwapCandidate) :
    EngineState :=
  if !animationsEnabled then { e with lineLocks := e.lineLocks.set c.lineIndex false }
  else markRange e c.lineIndex c.startIndex c.endIndex
    (fun b => { b with fadingOut := true })

/-- The fade-out-timer callback of performSwap (part_000 lines 762-769):
re-check the flag; if animations were disabled during the fade-out phase,
release the lock and stop; otherwise execute the swap animated. -/
def swapExecStep (animationsEnabled : Bool) (e : EngineState) (c : SwapCandidate) :
    EngineState :=
  if !animationsEnabled then { e with lineLocks := e.lineLocks.set c.lineIndex false }
  else executeSwap e c true

/-- The requestAnimationFrame callback of an animated executeSwap (part_000
lines 847-853): the freshly inserted boxes flip from fading-in to visible
plus highlighted. They occupy positions [startIndex, startIndex + n). -/
def swapRafStep (e : EngineState) (c : SwapCandidate) : EngineState :=
  markRange e c.lineIndex c.startIndex (c.startIndex + c.newSkills.length)
    (fun b => { b with fadingIn := false, visible := true, highlighted := true })

/-- The final timer of an animated executeSwap (part_000 lines 855-858):
clear the highlight of the new boxes and release the line lock. -/
def swapFinalStep (e : EngineState) (c : SwapCandidate) : EngineState :=
  let e1 := markRange e c.lineIndex c.startIndex (c.startIndex + c.newSkills.length)
    (fun b => { b with highlighted := false })
  { e1 with lineLocks := e1.lineLocks.set c.lineIndex false }

/-- stopAnimation (part_000 lines 713-718): clear the swap interval. -/
def stopAnimation (e : EngineState) : EngineState :=
  { e with schedulerRunning := false }

/-- startAnimation (part_000 lines 693-697): unless reduced motion is
requested, reset the line locks and start the swap interval. -/
def startAnimation (reducedMotion : Bool) (e : EngineState) : EngineState :=
  if reducedMotion then e
  else { e with lineLocks := [false, false, false, false], schedulerRunning := true }

/-- The gap read of calculateLineWidth: `parseInt(...) || 8`, so a missing
(NaN) and a zero parsed gap both fall back to 8. -/
def parsedGap (gapRaw : Option Int) : Int :=
  match gapRaw with
  | none => 8
  | some g => if g = 0 then 8 else g

/-- calculateLineWidth (part_000 lines 585-589): the line width is the
container width minus 32 and the gap is re-read from the computed style. -/
def calculateLineWidth (containerWidth : Int) (gapRaw : Option Int) (e : EngineState) :
    EngineState :=
  { e with
    lineWidth := containerWidth - 32,
    gap := parsedGap gapRaw }

/-- measureAllSkills (part_000 lines 591-604): replace the width cache with
freshly measured widths (supplied by the environment). -/
def measureAllSkills (newWidths : String → Option Int) (e : EngineState) : EngineState :=
  { e with skillWidths := newWidths }

/-- render (part_000 lines 655-681), synchronous part: rebuild the rendered
boxes of all lines from scratch with createSkillBox (the staggered flips to
visible are later timer callbacks). -/
def render (e : EngineState) : EngineState :=
  { e with lineElements := e.lines.map (fun line => line.map createSkillBox) }

/-- handleResize (part_000 lines 872-886): stop the scheduler, recompute the
layout numbers, and only when the line width moved by more than 50 pixels
re-measure, repack and re-render everything; finally restart the
scheduler. -/
def handleResize (e : EngineState) (reducedMotion : Bool) (containerWidth : Int)
    (gapRaw : Option Int) (newWidths : String → Option Int)
    (shuffle : Nat → List String → List String) (draws : Nat → Nat → Nat) : EngineState :=
  let e1 := stopAnimation e
  let oldWidth := e1.lineWidth
  let e2 := calculateLineWidth containerWidth gapRaw e1
  let e3 :=
    if 50 < (e2.lineWidth - oldWidth).natAbs then
      render { measureAllSkills newWidths e2 with
        lines := fillAllLines e2.allSkills newWidths e2.gap e2.lineWidth shuffle draws }
    else e2
  startAnimation reducedMotion e3

/-- The partition property of the 4 displayed lines: no label appears on two
different lines. -/
def linesDisjoint (lines : List (List String)) : Prop :=
  lines.Pairwise (fun a b => ∀ s ∈ a, s ∉ b)

/-- The full control flow of one swap of performSwap (part_000 lines
740-771) and of the executeSwap callbacks it triggers, as run by the timer
chain. `anims k` is the value of Settings.animationsEnabled at the k-th
check: check 0 before the highlight phase, check 1 at the start of the
fade-out phase, check 2 at the start of the swap phase. A false at check 0
executes the swap instantly; a false at checks 1 or 2 releases the lock and
returns; otherwise the animated phases run in order. -/
def runSwap (anims : Nat → Bool) (e : EngineState) (c : SwapCandidate) : EngineState :=
  if !anims 0 then performSwapStart false e c
  else
    let e1 := performSwapStart true e c
    if !anims 1 then swapFadeOutStep false e1 c
    else
      let e2 := swapFadeOutStep true e1 c
      if !anims 2 then swapExecStep false e2 c
      else swapFinalStep (swapRafStep (swapExecStep true e2 c) c) c

/-- A width cache with the JavaScript falsy fallback made explicit: entries
that are missing or 0 are replaced by an explicit 100. Used to state that
the engine treats such labels as having width 100. -/
def patchWidths (sw : String → Option Int) : String → Option Int := fun s =>
  match sw s with
  | none => some 100
  | some w => if w = 0 then some 100 else some w

/-- A small concrete engine state used by witnesses and counterexamples:
three labels of width 50, gap 10, line width 110, labels A and B displayed
on lines 0 and 1, X undisplayed, no lock held. -/
def demoState : EngineState :=
  { allSkills := ["A", "B", "X"]
    skillWidths := fun _ => some 50
    gap := 10
    lineWidth := 110
    lines := [["A"], ["B"], [], []]
    lineElements := [[{ skill := "A", visible := true }],
      [{ skill := "B", visible := true }], [], []]
    lineLocks := [false, false, false, false]
    schedulerRunning := true }

lemma lineTotalWidth_nil (sw : String → Option Int) (gap : Int) :
    lineTotalWidth sw gap [] = 0 := by
  simp [lineTotalWidth]

lemma lineTotalWidth_append_singleton (sw : String → Option Int) (gap : Int)
    (l : List String) (s : String) (h : l ≠ []) :
    lineTotalWidth sw gap (l ++ [s]) =
      lineTotalWidth sw gap l + gap + getSkillWidth sw s := by
  have hl : 1 ≤ l.length := by
    cases l with
    | nil => exact absurd rfl h
    | cons a t => simp
  simp only [lineTotalWidth, List.map_append, List.sum_append, List.map_cons,
    List.map_nil, List.sum_cons, List.sum_nil, List.length_append,
    List.length_cons, List.length_nil]
  have hlen : (l.length + 1 - 1 : Nat) = (l.length - 1) + 1 := by omega
  rw [hlen]
  push_cast
  ring

lemma lineTotalWidth_singleton (sw : String → Option Int) (gap : Int) (s : String) :
    lineTotalWidth sw gap [s] = getSkillWidth sw s := by
  simp [lineTotalWidth]

/-- Width invariant of the fill loop: the accumulated width always equals the
rendered width of the accumulated result, and once the result is nonempty it
never exceeds the target width (the acceptance test checks this before every
push). -/
lemma fillLineGo_width (shuffled : List String) (sw : String → Option Int)
    (gap lineWidth : Int) (draws : Nat → Nat) :
    ∀ fuel attempts result currentWidth,
      currentWidth = lineTotalWidth sw gap result →
      (result ≠ [] → currentWidth ≤ lineWidth) →
      (fillLineGo shuffled (getSkillWidth sw) gap lineWidth draws
          fuel attempts result currentWidth).currentWidth =
        lineTotalWidth sw gap
          (fillLineGo shuffled (getSkillWidth sw) gap lineWidth draws
            fuel attempts result currentWidth).result ∧
      ((fillLineGo shuffled (getSkillWidth sw) gap lineWidth draws
          fuel attempts result currentWidth).result ≠ [] →
        (fillLineGo shuffled (getSkillWidth sw) gap lineWidth draws
          fuel attempts result currentWidth).currentWidth ≤ lineWidth) := by
  intro fuel
  induction fuel with
  | zero =>
    intro attempts result currentWidth h1 h2
    exact ⟨h1, h2⟩
  | succ n ih =>
    intro attempts result currentWidth h1 h2
    simp only [fillLineGo]
    by_cases hmem : shuffled.getD (draws attempts % shuffled.length) "" ∈ result
    · rw [if_pos hmem]
      exact ih _ _ _ h1 h2
    · rw [if_neg hmem]
      rcases result with _ | ⟨a, t⟩
      · simp only [List.length_nil]
        rw [if_neg (Nat.lt_irrefl 0)]
        have h0 : currentWidth = 0 := by
          rw [h1, lineTotalWidth_nil]
        by_cases hfit : currentWidth + 0 +
            getSkillWidth sw (shuffled.getD (draws attempts % shuffled.length) "") ≤ lineWidth
        · rw [if_pos hfit]
          apply ih
          · rw [h0, List.nil_append, lineTotalWidth_singleton]
            ring
          · intro _
            exact hfit
        · rw [if_neg hfit]
          by_cases hth : jsRatioGE08 currentWidth lineWidth = true
          · rw [if_pos hth]
            exact ⟨h1, h2⟩
          · rw [if_neg hth]
            exact ih _ _ _ h1 h2
      · have hlen : 0 < (a :: t).length := by simp
        rw [if_pos hlen]
        by_cases hfit : currentWidth + gap +
            getSkillWidth sw (shuffled.getD (draws attempts % shuffled.length) "") ≤ lineWidth
        · rw [if_pos hfit]
          apply ih
          · rw [lineTotalWidth_append_singleton sw gap _ _ (by simp), ← h1]
          · intro _
            exact hfit
        · rw [if_neg hfit]
          by_cases hth : jsRatioGE08 currentWidth lineWidth = true
          · rw [if_pos hth]
            exact ⟨h1, h2⟩
          · rw [if_neg hth]
            exact ih _ _ _ h1 h2

lemma getD_mem_of_lt {α : Type} {l : List α} {n : Nat} {d : α} (h : n < l.length) :
    l.getD n d ∈ l := by
  induction l generalizing n with
  | nil => simp at h
  | cons a t ih =>
    cases n with
    | zero => simp
    | succ m =>
      rw [List.getD_cons_succ]
      exact List.mem_cons_of_mem a (ih (by simpa using h))

/-- Every exit of the fill loop is one of the two recorded stops: a threshold
break happens only when the 80 percent test just succeeded on the returned
accumulated width, and a budget stop consumes exactly the remaining fuel. -/
lemma fillLineGo_stop (shuffled : List String) (w : String → Int)
    (gap lineWidth : Int) (draws : Nat → Nat) :
    ∀ fuel attempts result currentWidth,
      ((fillLineGo shuffled w gap lineWidth draws fuel attempts result currentWidth).stop =
          FillStop.threshold →
        jsRatioGE08
          (fillLineGo shuffled w gap lineWidth draws fuel attempts result currentWidth).currentWidth
          lineWidth = true) ∧
      ((fillLineGo shuffled w gap lineWidth draws fuel attempts result currentWidth).stop =
          FillStop.budget →
        (fillLineGo shuffled w gap lineWidth draws fuel attempts result currentWidth).attemptsUsed =
          attempts + fuel) := by
  intro fuel
  induction fuel with
  | zero =>
    intro attempts result currentWidth
    exact ⟨fun h => FillStop.noConfusion h, fun _ => rfl⟩
  | succ n ih =>
    intro attempts result currentWidth
    simp only [fillLineGo]
    by_cases hmem : shuffled.getD (draws attempts % shuffled.length) "" ∈ result
    · rw [if_pos hmem]
      refine ⟨(ih (attempts + 1) result currentWidth).1, fun h => ?_⟩
      rw [(ih (attempts + 1) result currentWidth).2 h]
      omega
    · rw [if_neg hmem]
      by_cases hfit : currentWidth + (if 0 < result.length then gap else 0) +
          w (shuffled.getD (draws attempts % shuffled.length) "") ≤ lineWidth
      · rw [if_pos hfit]
        refine ⟨(ih _ _ _).1, fun h => ?_⟩
        rw [(ih _ _ _).2 h]
        omega
      · rw [if_neg hfit]
        by_cases hth : jsRatioGE08 currentWidth lineWidth = true
        · rw [if_pos hth]
          exact ⟨fun _ => hth, fun h => FillStop.noConfusion h⟩
        · rw [if_neg hth]
          refine ⟨(ih _ _ _).1, fun h => ?_⟩
          rw [(ih _ _ _).2 h]
          omega

/-- Labels accepted by the fill loop come from the accumulator or from the
shuffled pool: each accepted skill is read out of the pool at a drawn index. -/
lemma fillLineGo_mem (shuffled : List String) (w : String → Int)
    (gap lineWidth : Int) (draws : Nat → Nat) (hne : shuffled ≠ []) :
    ∀ fuel attempts result currentWidth s,
      s ∈ (fillLineGo shuffled w gap lineWidth draws fuel attempts result currentWidth).result →
      s ∈ result ∨ s ∈ shuffled := by
  intro fuel
  induction fuel with
  | zero =>
    intro attempts result currentWidth s hs
    exact Or.inl hs
  | succ n ih =>
    intro attempts result currentWidth s hs
    simp only [fillLineGo] at hs
    by_cases hmem : shuffled.getD (draws attempts % shuffled.length) "" ∈ result
    · rw [if_pos hmem] at hs
      exact ih _ _ _ s hs
    · rw [if_neg hmem] at hs
      by_cases hfit : currentWidth + (if 0 < result.length then gap else 0) +
          w (shuffled.getD (draws attempts % shuffled.length) "") ≤ lineWidth
      · rw [if_pos hfit] at hs
        rcases ih _ _ _ s hs with h | h
        · rcases List.mem_append.mp h with h1 | h1
          · exact Or.inl h1
          · right
            rw [List.mem_singleton.mp h1]
            apply getD_mem_of_lt
            exact Nat.mod_lt _ (by
              cases shuffled with
              | nil => exact absurd rfl hne
              | cons a t => simp)
        · exact Or.inr h
      · rw [if_neg hfit] at hs
        by_cases hth : jsRatioGE08 currentWidth lineWidth = true
        · rw [if_pos hth] at hs
          exact Or.inl hs
        · rw [if_neg hth] at hs
          exact ih _ _ _ s hs

/-- The fill loop never accepts a label twice: the used set (here, membership
in the accumulator) is checked before every acceptance. -/
lemma fillLineGo_nodup (shuffled : List String) (w : String → Int)
    (gap lineWidth : Int) (draws : Nat → Nat) :
    ∀ fuel attempts result currentWidth,
      result.Nodup →
      (fillLineGo shuffled w gap lineWidth draws fuel attempts result currentWidth).result.Nodup := by
  intro fuel
  induction fuel with
  | zero =>
    intro attempts result currentWidth h
    exact h
  | succ n ih =>
    intro attempts result currentWidth h
    simp only [fillLineGo]
    by_cases hmem : shuffled.getD (draws attempts % shuffled.length) "" ∈ result
    · rw [if_pos hmem]
      exact ih _ _ _ h
    · rw [if_neg hmem]
      by_cases hfit : currentWidth + (if 0 < result.length then gap else 0) +
          w (shuffled.getD (draws attempts % shuffled.length) "") ≤ lineWidth
      · rw [if_pos hfit]
        apply ih
        rw [List.nodup_append]
        exact ⟨h, List.nodup_singleton _,
          fun a ha hb => hmem (List.mem_singleton.mp hb ▸ ha)⟩
      · rw [if_neg hfit]
        by_cases hth : jsRatioGE08 currentWidth lineWidth = true
        · rw [if_pos hth]
          exact h
        · rw [if_neg hth]
          exact ih _ _ _ h

/-- The labels fillLine returns all come from its pool. -/
lemma fillLine_subset (shuffled : List String) (sw : String → Option Int)
    (gap lineWidth : Int) (draws : Nat → Nat) :
    ∀ s ∈ fillLine shuffled sw gap lineWidth draws, s ∈ shuffled := by
  intro s hs
  cases hsh : shuffled with
  | nil =>
    rw [hsh] at hs
    simp [fillLine, fillLineFull, fillLineGo] at hs
  | cons a t =>
    rw [hsh] at hs
    rcases fillLineGo_mem (a :: t) (getSkillWidth sw) gap lineWidth draws (by simp)
      ((a :: t).length * 3) 0 [] 0 s hs with h | h
    · simp at h
    · exact h

/-- fillLine returns a duplicate-free sequence. -/
lemma fillLine_nodup (shuffled : List String) (sw : String → Option Int)
    (gap lineWidth : Int) (draws : Nat → Nat) :
    (fillLine shuffled sw gap lineWidth draws).Nodup :=
  fillLineGo_nodup shuffled (getSkillWidth sw) gap lineWidth draws
    (shuffled.length * 3) 0 [] 0 List.nodup_nil

/-- Claim C1: for every call to fillLine with a pool of labels, each with a
cached non-negative pixel width, a gap g and a target width W, the returned
sequence satisfies: sum of the label widths plus (n - 1) gaps is at most W,
where n is the length of the returned sequence. -/
theorem fillLine_width_le (shuffled : List String) (sw : String → Option Int)
    (gap lineWidth : Int) (draws : Nat → Nat)
    (hcache : ∀ s ∈ shuffled, ∃ w, sw s = some w ∧ 0 ≤ w)
    (hW : 0 ≤ lineWidth) :
    lineTotalWidth sw gap (fillLine shuffled sw gap lineWidth draws) ≤ lineWidth := by
  have h := fillLineGo_width shuffled sw gap lineWidth draws
    (shuffled.length * 3) 0 [] 0 (by rw [lineTotalWidth_nil]) (by intro h; simp at h)
  have hdef : fillLineFull shuffled sw gap lineWidth draws =
      fillLineGo shuffled (getSkillWidth sw) gap lineWidth draws
        (shuffled.length * 3) 0 [] 0 := rfl
  rcases h with ⟨heq, hle⟩
  by_cases hres : (fillLineFull shuffled sw gap lineWidth draws).result = []
  · rw [fillLine, hres, lineTotalWidth_nil]
    exact hW
  · rw [fillLine, hdef, ← heq]
    exact hle (by rw [← hdef]; exact hres)

/-- Witness for C1 at a concrete input: pool [A] with cached width 50,
gap 10, target width 110; the hypotheses hold and the packed width is
bounded by 110. -/
theorem fillLine_width_le_witness :
    (∀ s ∈ ["A"], ∃ w, (fun _ : String => some (50 : Int)) s = some w ∧ 0 ≤ w) ∧
      lineTotalWidth (fun _ => some 50) 10
        (fillLine ["A"] (fun _ => some 50) 10 110 (fun _ => 0)) ≤ 110 :=
  ⟨fun _ _ => ⟨50, rfl, by decide⟩,
    fillLine_width_le ["A"] (fun _ => some 50) 10 110 (fun _ => 0)
      (fun _ _ => ⟨50, rfl, by decide⟩) (by decide)⟩

/-- Claim C4: whenever fillLine returns a result that does not use every
available label from the pool, either the terminating failed placement
happened with the accumulated width at or above 80 percent of the target
width, or the attempt budget of 3 times the pool size was exhausted; the
fill loop has no other early exit. -/
theorem fillLine_early_stop (shuffled : List String) (sw : String → Option Int)
    (gap lineWidth : Int) (draws : Nat → Nat)
    (hW : 0 < lineWidth)
    (hmiss : ∃ s ∈ shuffled, s ∉ (fillLineFull shuffled sw gap lineWidth draws).result) :
    ((fillLineFull shuffled sw gap lineWidth draws).stop = FillStop.threshold ∧
      4 * lineWidth ≤ 5 * (fillLineFull shuffled sw gap lineWidth draws).currentWidth) ∨
    ((fillLineFull shuffled sw gap lineWidth draws).stop = FillStop.budget ∧
      (fillLineFull shuffled sw gap lineWidth draws).attemptsUsed = shuffled.length * 3) := by
  clear hmiss
  have h := fillLineGo_stop shuffled (getSkillWidth sw) gap lineWidth draws
    (shuffled.length * 3) 0 [] 0
  have hdef : fillLineFull shuffled sw gap lineWidth draws =
      fillLineGo shuffled (getSkillWidth sw) gap lineWidth draws
        (shuffled.length * 3) 0 [] 0 := rfl
  cases hstop : (fillLineFull shuffled sw gap lineWidth draws).stop with
  | threshold =>
    left
    refine ⟨rfl, ?_⟩
    have hr := h.1 (by rw [← hdef]; exact hstop)
    rw [← hdef] at hr
    rw [jsRatioGE08, if_pos hW] at hr
    exact of_decide_eq_true hr
  | budget =>
    right
    refine ⟨rfl, ?_⟩
    have hr := h.2 (by rw [← hdef]; exact hstop)
    rw [← hdef] at hr
    rw [hr]
    omega

/-- Witness for C4: pool [A] of width 50, target width 40. The single label
never fits, so the result misses a pool label, and the loop stops by
exhausting its budget of 3 attempts. -/
theorem fillLine_early_stop_witness :
    (0 : Int) < 40 ∧
    (∃ s ∈ ["A"], s ∉ (fillLineFull ["A"] (fun _ => some 50) 10 40 (fun _ => 0)).result) ∧
    (((fillLineFull ["A"] (fun _ => some 50) 10 40 (fun _ => 0)).stop = FillStop.threshold ∧
        4 * 40 ≤ 5 * (fillLineFull ["A"] (fun _ => some 50) 10 40 (fun _ => 0)).currentWidth) ∨
      ((fillLineFull ["A"] (fun _ => some 50) 10 40 (fun _ => 0)).stop = FillStop.budget ∧
        (fillLineFull ["A"] (fun _ => some 50) 10 40 (fun _ => 0)).attemptsUsed =
          (["A"] : List String).length * 3)) :=
  ⟨by decide, ⟨"A", by decide, by decide⟩,
    fillLine_early_stop ["A"] (fun _ => some 50) 10 40 (fun _ => 0) (by decide)
      ⟨"A", by decide, by decide⟩⟩

/-- When the target width is positive and every pool label is wider than the
whole target, the fill loop accepts nothing and never reaches the threshold
(the accumulated width stays at 0 percent), so it exhausts its budget and
returns the empty sequence. -/
lemma fillLineGo_all_too_wide (shuffled : List String) (sw : String → Option Int)
    (gap lineWidth : Int) (draws : Nat → Nat)
    (hW : 0 < lineWidth) (hne : shuffled ≠ [])
    (hwide : ∀ s ∈ shuffled, lineWidth < getSkillWidth sw s) :
    ∀ fuel attempts,
      fillLineGo shuffled (getSkillWidth sw) gap lineWidth draws fuel attempts [] 0 =
        ⟨[], 0, FillStop.budget, attempts + fuel⟩ := by
  intro fuel
  induction fuel with
  | zero =>
    intro attempts
    simp [fillLineGo]
  | succ n ih =>
    intro attempts
    simp only [fillLineGo]
    have hsk : shuffled.getD (draws attempts % shuffled.length) "" ∈ shuffled := by
      apply getD_mem_of_lt
      apply Nat.mod_lt
      cases shuffled with
      | nil => exact absurd rfl hne
      | cons a t => simp
    rw [if_neg (List.not_mem_nil _)]
    simp only [List.length_nil]
    rw [if_neg (Nat.lt_irrefl 0)]
    have hnofit : ¬ ((0 : Int) + 0 +
        getSkillWidth sw (shuffled.getD (draws attempts % shuffled.length) "") ≤ lineWidth) := by
      have := hwide _ hsk
      omega
    rw [if_neg hnofit]
    have hnoth : ¬ (jsRatioGE08 0 lineWidth = true) := by
      rw [jsRatioGE08, if_pos hW]
      simp
      omega
    rw [if_neg hnoth]
    rw [ih (attempts + 1)]
    have : attempts + 1 + n = attempts + (n + 1) := by omega
    rw [this]


/-- Inversion of a successful candidate search: what every field of the
returned candidate is, and which guards must have passed. -/
lemma findSwapCandidate_inv {st : EngineState} {r1 r2 r3 : Nat}
    {shuffle : List String → List String} {draws : Nat → Nat} {c : SwapCandidate}
    (h : findSwapCandidate st r1 r2 r3 shuffle draws = some c) :
    c.lineIndex = r1 % 4 ∧
    st.lineLocks.getD (r1 % 4) false = false ∧
    st.lines.getD (r1 % 4) [] ≠ [] ∧
    c.startIndex = (selectRun (st.lines.getD (r1 % 4) []).length r2 r3).1 ∧
    c.endIndex = (selectRun (st.lines.getD (r1 % 4) []).length r2 r3).2 ∧
    c.removedSkills =
      ((st.lines.getD (r1 % 4) []).drop c.startIndex).take (c.endIndex - c.startIndex) ∧
    c.newSkills = fillLine (shuffle (availablePool st)) st.skillWidths st.gap
      (swapAvailableWidth st (r1 % 4) c.startIndex c.endIndex) draws ∧
    c.newSkills ≠ [] := by
  simp only [findSwapCandidate] at h
  by_cases h1 : st.lineLocks.getD (r1 % 4) false = true
  · rw [if_pos h1] at h
    exact absurd h (by simp)
  · rw [if_neg h1] at h
    have h1f : st.lineLocks.getD (r1 % 4) false = false := by
      revert h1
      cases st.lineLocks.getD (r1 % 4) false <;> simp
    by_cases h2 : (st.lines.getD (r1 % 4) []).length = 0
    · rw [if_pos h2] at h
      exact absurd h (by simp)
    · rw [if_neg h2] at h
      have h2f : st.lines.getD (r1 % 4) [] ≠ [] := by
        intro hh
        exact h2 (by rw [hh]; rfl)
      by_cases h3 : (selectRun (st.lines.getD (r1 % 4) []).length r2 r3).2 =
          (selectRun (st.lines.getD (r1 % 4) []).length r2 r3).1
      · rw [if_pos h3] at h
        exact absurd h (by simp)
      · rw [if_neg h3] at h
        by_cases h4 : (availablePool st).isEmpty = true
        · rw [if_pos h4] at h
          exact absurd h (by simp)
        · rw [if_neg h4] at h
          by_cases h5 : (fillLine (shuffle (availablePool st)) st.skillWidths st.gap
              (swapAvailableWidth st (r1 % 4)
                (selectRun (st.lines.getD (r1 % 4) []).length r2 r3).1
                (selectRun (st.lines.getD (r1 % 4) []).length r2 r3).2) draws).isEmpty = true
          · rw [if_pos h5] at h
            exact absurd h (by simp)
          · rw [if_neg h5] at h
            obtain rfl : c = _ := (Option.some.inj h).symm
            rw [List.isEmpty_iff] at h5
            exact ⟨rfl, h1f, h2f, rfl, rfl, rfl, rfl, h5⟩

/-- Claim C5: at most one swap is in flight per line. findSwapCandidate
never returns a candidate for a locked line; a swap sets the line lock
before its first phase; the intermediate phase callbacks keep the lock held;
and the lock is cleared only by final completion (swapFinalStep), by an
instant non-animated swap, or by an early abort of a phase check. -/
theorem swap_lock_discipline :
    (∀ (st : EngineState) (r1 r2 r3 : Nat) (shuffle : List String → List String)
      (draws : Nat → Nat) (c : SwapCandidate),
      findSwapCandidate st r1 r2 r3 shuffle draws = some c →
      st.lineLocks.getD c.lineIndex false = false) ∧
    (∀ (e : EngineState) (c : SwapCandidate),
      (performSwapStart true e c).lineLocks = e.lineLocks.set c.lineIndex true ∧
      (performSwapStart false e c).lineLocks = e.lineLocks.set c.lineIndex false ∧
      (swapFadeOutStep true e c).lineLocks = e.lineLocks ∧
      (swapFadeOutStep false e c).lineLocks = e.lineLocks.set c.lineIndex false ∧
      (swapExecStep true e c).lineLocks = e.lineLocks ∧
      (swapExecStep false e c).lineLocks = e.lineLocks.set c.lineIndex false ∧
      (swapRafStep e c).lineLocks = e.lineLocks ∧
      (swapFinalStep e c).lineLocks = e.lineLocks.set c.lineIndex false) := by
  constructor
  · intro st r1 r2 r3 shuffle draws c h
    obtain ⟨hli, hlock, -⟩ := findSwapCandidate_inv h
    rw [hli]
    exact hlock
  · intro e c
    refine ⟨?_, ?_, ?_, ?_, ?_, ?_, ?_, ?_⟩ <;>
      simp [performSwapStart, executeSwap, markRange, swapFadeOutStep,
        swapExecStep, swapRafStep, swapFinalStep, List.set_set]

/-- Witness for C5 on the demo state: the candidate returned for line 0
names a line whose lock is indeed false. -/
theorem swap_lock_discipline_witness :
    demoState.lineLocks.getD
      (⟨0, 0, 1, ["A"], ["X"]⟩ : SwapCandidate).lineIndex false = false :=
  swap_lock_discipline.1 demoState 0 0 0 id (fun _ => 0) ⟨0, 0, 1, ["A"], ["X"]⟩
    (by decide)

/-- Claim C10: for a non-empty line of length len, the selected run always
has length between 1 and min 3 len and stays inside the line; in
consequence the run-of-length-0 failure branch of findSwapCandidate cannot
fire for a non-empty unlocked line, so a failed search there is due to an
empty replacement pool or an empty packing result only. -/
theorem selectRun_bounds :
    (∀ len r2 r3 : Nat, 0 < len →
      1 ≤ (selectRun len r2 r3).2 - (selectRun len r2 r3).1 ∧
      (selectRun len r2 r3).2 - (selectRun len r2 r3).1 ≤ min 3 len ∧
      (selectRun len r2 r3).2 ≤ len) ∧
    (∀ (st : EngineState) (r1 r2 r3 : Nat) (shuffle : List String → List String)
      (draws : Nat → Nat),
      st.lineLocks.getD (r1 % 4) false = false →
      st.lines.getD (r1 % 4) [] ≠ [] →
      findSwapCandidate st r1 r2 r3 shuffle draws = none →
      availablePool st = [] ∨
      fillLine (shuffle (availablePool st)) st.skillWidths st.gap
        (swapAvailableWidth st (r1 % 4)
          (selectRun (st.lines.getD (r1 % 4) []).length r2 r3).1
          (selectRun (st.lines.getD (r1 % 4) []).length r2 r3).2) draws = []) := by
  have hbounds : ∀ len r2 r3 : Nat, 0 < len →
      1 ≤ (selectRun len r2 r3).2 - (selectRun len r2 r3).1 ∧
      (selectRun len r2 r3).2 - (selectRun len r2 r3).1 ≤ min 3 len ∧
      (selectRun len r2 r3).2 ≤ len := by
    intro len r2 r3 hlen
    simp only [selectRun]
    have hc : r2 % 3 < 3 := Nat.mod_lt _ (by norm_num)
    have hs : r3 % (len - (r2 % 3 + 1) + 1) < len - (r2 % 3 + 1) + 1 :=
      Nat.mod_lt _ (by omega)
    omega
  refine ⟨hbounds, ?_⟩
  intro st r1 r2 r3 shuffle draws hlock hne h
  simp only [findSwapCandidate] at h
  rw [if_neg (by rw [hlock]; simp)] at h
  rw [if_neg (fun hh : (st.lines.getD (r1 % 4) []).length = 0 =>
    hne (List.length_eq_zero.mp hh))] at h
  have hlen : 0 < (st.lines.getD (r1 % 4) []).length :=
    Nat.pos_of_ne_zero (fun hh => hne (List.length_eq_zero.mp hh))
  obtain ⟨hrun, -, -⟩ := hbounds (st.lines.getD (r1 % 4) []).length r2 r3 hlen
  rw [if_neg (by omega)] at h
  by_cases h4 : (availablePool st).isEmpty = true
  · left
    exact List.isEmpty_iff.mp h4
  · rw [if_neg h4] at h
    by_cases h5 : (fillLine (shuffle (availablePool st)) st.skillWidths st.gap
        (swapAvailableWidth st (r1 % 4)
          (selectRun (st.lines.getD (r1 % 4) []).length r2 r3).1
          (selectRun (st.lines.getD (r1 % 4) []).length r2 r3).2) draws).isEmpty = true
    · right
      exact List.isEmpty_iff.mp h5
    · rw [if_neg h5] at h
      exact absurd h (by simp)

/-- Witness for C10: the run bounds at a line of length 1, and the failure
decomposition on a state where every label is displayed (the replacement
pool is empty, so the search fails for that reason and no other). -/
theorem selectRun_bounds_witness :
    (1 ≤ (selectRun 1 0 0).2 - (selectRun 1 0 0).1 ∧
      (selectRun 1 0 0).2 - (selectRun 1 0 0).1 ≤ min 3 1 ∧
      (selectRun 1 0 0).2 ≤ 1) ∧
    (availablePool { demoState with allSkills := ["A", "B"] } = [] ∨
      fillLine (id (availablePool { demoState with allSkills := ["A", "B"] }))
        { demoState with allSkills := ["A", "B"] }.skillWidths
        { demoState with allSkills := ["A", "B"] }.gap
        (swapAvailableWidth { demoState with allSkills := ["A", "B"] } (0 % 4)
          (selectRun ({ demoState with allSkills := ["A", "B"] }.lines.getD (0 % 4) []).length 0 0).1
          (selectRun ({ demoState with allSkills := ["A", "B"] }.lines.getD (0 % 4) []).length 0 0).2)
        (fun _ => 0) = []) :=
  ⟨selectRun_bounds.1 1 0 0 (by decide),
    selectRun_bounds.2 { demoState with allSkills := ["A", "B"] } 0 0 0 id
      (fun _ => 0) (by decide) (by decide) (by decide)⟩

lemma getD_eq_getElem {α : Type} {l : List α} {n : Nat} {d : α} (h : n < l.length) :
    l.getD n d = l[n] := by
  rw [List.getD_eq_getElem?_getD, List.getElem?_eq_getElem h]
  rfl

lemma getD_eq_default {α : Type} {l : List α} {n : Nat} {d : α} (h : l.length ≤ n) :
    l.getD n d = d := by
  rw [List.getD_eq_getElem?_getD, List.getElem?_eq_none h]
  rfl

/-- Replacement labels of a returned swap candidate are not displayed on any
line at candidate time: they come from the pool filtered against the flatten
of all 4 lines. -/
lemma findSwapCandidate_fresh {st : EngineState} {r1 r2 r3 : Nat}
    {shuffle : List String → List String} {draws : Nat → Nat} {c : SwapCandidate}
    (hperm : ∀ l, List.Perm (shuffle l) l)
    (h : findSwapCandidate st r1 r2 r3 shuffle draws = some c) :
    ∀ s ∈ c.newSkills, ∀ line ∈ st.lines, s ∉ line := by
  intro s hs line hline hsl
  obtain ⟨-, -, -, -, -, -, hnew, -⟩ := findSwapCandidate_inv h
  rw [hnew] at hs
  have h1 : s ∈ shuffle (availablePool st) := fillLine_subset _ _ _ _ _ s hs
  have h2 : s ∈ availablePool st := (hperm _).mem_iff.mp h1
  rw [availablePool, List.mem_filter] at h2
  have h3 := h2.2
  simp only [Bool.not_eq_true', decide_eq_false_iff_not] at h3
  apply h3
  rw [displayedSkills, List.mem_flatten]
  exact ⟨line, hline, hsl⟩

/-- Claim C6: every replacement label of a swap candidate returned by
findSwapCandidate is, at candidate time, displayed on none of the 4 lines,
including the line being modified; in particular no replacement is part of
the run being removed. -/
theorem findSwapCandidate_replacements_undisplayed (st : EngineState)
    (r1 r2 r3 : Nat) (shuffle : List String → List String) (draws : Nat → Nat)
    (c : SwapCandidate) (hperm : ∀ l, List.Perm (shuffle l) l)
    (h : findSwapCandidate st r1 r2 r3 shuffle draws = some c) :
    (∀ s ∈ c.newSkills, ∀ line ∈ st.lines, s ∉ line) ∧
    (∀ s ∈ c.newSkills, s ∉ c.removedSkills) := by
  have hfresh := findSwapCandidate_fresh hperm h
  refine ⟨hfresh, ?_⟩
  intro s hs hrem
  obtain ⟨-, -, hne, -, -, hremEq, -, -⟩ := findSwapCandidate_inv h
  rw [hremEq] at hrem
  have h1 : s ∈ st.lines.getD (r1 % 4) [] :=
    List.mem_of_mem_drop (List.mem_of_mem_take hrem)
  have hlt : r1 % 4 < st.lines.length := by
    by_contra hge
    exact hne (getD_eq_default (by omega))
  exact hfresh s hs _ (getD_mem_of_lt hlt) h1

/-- Witness for C6 on the demo state: the candidate for line 0 replaces A by
X, and X is displayed on no line and is not the removed label. -/
theorem findSwapCandidate_replacements_undisplayed_witness :
    (∀ s ∈ (⟨0, 0, 1, ["A"], ["X"]⟩ : SwapCandidate).newSkills,
      ∀ line ∈ demoState.lines, s ∉ line) ∧
    (∀ s ∈ (⟨0, 0, 1, ["A"], ["X"]⟩ : SwapCandidate).newSkills,
      s ∉ (⟨0, 0, 1, ["A"], ["X"]⟩ : SwapCandidate).removedSkills) :=
  findSwapCandidate_replacements_undisplayed demoState 0 0 0 id (fun _ => 0)
    ⟨0, 0, 1, ["A"], ["X"]⟩ (fun l => List.Perm.refl l) (by decide)

lemma performSwapStart_lines_true (e : EngineState) (c : SwapCandidate) :
    (performSwapStart true e c).lines = e.lines := by
  simp [performSwapStart, markRange]

lemma swapFadeOutStep_lines (b : Bool) (e : EngineState) (c : SwapCandidate) :
    (swapFadeOutStep b e c).lines = e.lines := by
  cases b <;> simp [swapFadeOutStep, markRange]

lemma swapRafStep_lines (e : EngineState) (c : SwapCandidate) :
    (swapRafStep e c).lines = e.lines := by
  simp [swapRafStep, markRange]

lemma swapFinalStep_lines (e : EngineState) (c : SwapCandidate) :
    (swapFinalStep e c).lines = e.lines := by
  simp [swapFinalStep, markRange]

lemma executeSwap_lines (e : EngineState) (c : SwapCandidate) (animated : Bool) :
    (executeSwap e c animated).lines =
      e.lines.set c.lineIndex
        ((e.lines.getD c.lineIndex []).take c.startIndex ++ c.newSkills ++
          (e.lines.getD c.lineIndex []).drop c.endIndex) := by
  cases animated <;> simp [executeSwap]

lemma performSwapStart_lines_false (e : EngineState) (c : SwapCandidate) :
    (performSwapStart false e c).lines =
      e.lines.set c.lineIndex
        ((e.lines.getD c.lineIndex []).take c.startIndex ++ c.newSkills ++
          (e.lines.getD c.lineIndex []).drop c.endIndex) := by
  simp [performSwapStart, executeSwap]

lemma swapExecStep_lines_false (e : EngineState) (c : SwapCandidate) :
    (swapExecStep false e c).lines = e.lines := by
  simp [swapExecStep]

lemma swapExecStep_lines_true (e : EngineState) (c : SwapCandidate) :
    (swapExecStep true e c).lines =
      e.lines.set c.lineIndex
        ((e.lines.getD c.lineIndex []).take c.startIndex ++ c.newSkills ++
          (e.lines.getD c.lineIndex []).drop c.endIndex) := by
  simp [swapExecStep, executeSwap]

/-- Replacing line i by a sequence whose labels either already were on line
i or are on no line at all preserves the pairwise disjointness of the
lines. -/
lemma linesDisjoint_set {lines : List (List String)} {i : Nat} {newLine : List String}
    (hi : i < lines.length) (hd : linesDisjoint lines)
    (h : ∀ s ∈ newLine, s ∈ lines[i] ∨ ∀ l ∈ lines, s ∉ l) :
    linesDisjoint (lines.set i newLine) := by
  rw [linesDisjoint, List.pairwise_iff_getElem] at hd ⊢
  intro a b ha hb hab
  rw [List.length_set] at ha hb
  by_cases hai : i = a
  · subst hai
    have hbne : i ≠ b := by omega
    intro s hs
    rw [List.getElem_set_self] at hs
    rw [List.getElem_set_ne hbne]
    rcases h s hs with hcase | hcase
    · exact hd i b hi hb hab s hcase
    · exact hcase _ (List.getElem_mem hb)
  · by_cases hbi : i = b
    · subst hbi
      intro s hs hsn
      rw [List.getElem_set_ne hai] at hs
      rw [List.getElem_set_self] at hsn
      rcases h s hsn with hcase | hcase
      · exact hd a i ha hi hab s hs hcase
      · exact hcase _ (List.getElem_mem ha) hs
    · intro s hs
      rw [List.getElem_set_ne hai] at hs
      rw [List.getElem_set_ne hbi]
      exact hd a b ha hb hab s hs

lemma pairwise_replicate_nil (n : Nat) : linesDisjoint (List.replicate n []) := by
  induction n with
  | zero => exact List.Pairwise.nil
  | succ k ih =>
    rw [List.replicate_succ]
    exact List.Pairwise.cons (fun b _ s hs => absurd hs (List.not_mem_nil s)) ih

/-- The fill pass invariant: each produced line avoids every label already
in the running used set, and the produced lines are pairwise disjoint. -/
lemma fillAllLinesGo_spec (allSkills : List String) (sw : String → Option Int)
    (gap lineWidth : Int) (shuffle : Nat → List String → List String)
    (draws : Nat → Nat → Nat) (hperm : ∀ i l, List.Perm (shuffle i l) l) :
    ∀ k i used, 4 - i ≤ k →
      (∀ line ∈ fillAllLinesGo allSkills sw gap lineWidth shuffle draws i used,
        ∀ s ∈ line, s ∉ used) ∧
      linesDisjoint (fillAllLinesGo allSkills sw gap lineWidth shuffle draws i used) := by
  intro k
  induction k with
  | zero =>
    intro i used hk
    rw [fillAllLinesGo, dif_neg (by omega : ¬ i < 4)]
    exact ⟨fun line hl => absurd hl (List.not_mem_nil _), List.Pairwise.nil⟩
  | succ k ih =>
    intro i used hk
    by_cases hi : i < 4
    · rw [fillAllLinesGo, dif_pos hi]
      by_cases hav : (allSkills.filter (fun s => !(decide (s ∈ used)))).isEmpty = true
      · rw [if_pos hav]
        refine ⟨fun line hl s hs => ?_, pairwise_replicate_nil _⟩
        rw [List.eq_of_mem_replicate hl] at hs
        exact absurd hs (List.not_mem_nil s)
      · rw [if_neg hav]
        have hmem : ∀ s ∈ fillLine
            (shuffle i (allSkills.filter (fun s => !(decide (s ∈ used))))) sw gap
            lineWidth (draws i),
            s ∈ allSkills.filter (fun s => !(decide (s ∈ used))) := by
          intro s hs
          exact (hperm i _).mem_iff.mp (fillLine_subset _ _ _ _ _ s hs)
        have hused : ∀ s ∈ fillLine
            (shuffle i (allSkills.filter (fun s => !(decide (s ∈ used))))) sw gap
            lineWidth (draws i), s ∉ used := by
          intro s hs
          have h2 := (List.mem_filter.mp (hmem s hs)).2
          simpa using h2
        obtain ⟨ih1, ih2⟩ := ih (i + 1)
          (used ++ fillLine (shuffle i (allSkills.filter (fun s => !(decide (s ∈ used)))))
            sw gap lineWidth (draws i)) (by omega)
        constructor
        · intro l hl s hs
          rcases List.mem_cons.mp hl with rfl | hl2
          · exact hused s hs
          · intro hu
            exact ih1 l hl2 s hs (List.mem_append.mpr (Or.inl hu))
        · refine List.Pairwise.cons ?_ ih2
          intro b hb s hs hsb
          exact ih1 b hb s hsb (List.mem_append.mpr (Or.inr hs))
    · rw [fillAllLinesGo, dif_neg hi]
      exact ⟨fun line hl => absurd hl (List.not_mem_nil _), List.Pairwise.nil⟩

/-- Claim C2: no label appears on more than one of the 4 lines. The fill
pass produces pairwise disjoint lines, and one full swap (candidate search
followed by its phase sequence under any animation flag history) preserves
that disjointness. -/
theorem skill_lines_partition :
    (∀ (allSkills : List String) (sw : String → Option Int) (gap lineWidth : Int)
      (shuffle : Nat → List String → List String) (draws : Nat → Nat → Nat),
      (∀ i l, List.Perm (shuffle i l) l) →
      linesDisjoint (fillAllLines allSkills sw gap lineWidth shuffle draws)) ∧
    (∀ (st : EngineState) (r1 r2 r3 : Nat) (shuffle : List String → List String)
      (draws : Nat → Nat) (c : SwapCandidate) (anims : Nat → Bool),
      (∀ l, List.Perm (shuffle l) l) →
      linesDisjoint st.lines →
      findSwapCandidate st r1 r2 r3 shuffle draws = some c →
      linesDisjoint ((runSwap anims st c).lines)) := by
  constructor
  · intro allSkills sw gap lineWidth shuffle draws hperm
    exact (fillAllLinesGo_spec allSkills sw gap lineWidth shuffle draws hperm 4 0 []
      (by omega)).2
  · intro st r1 r2 r3 shuffle draws c anims hperm hd hc
    obtain ⟨hli, -, hne, -, -, -, -, -⟩ := findSwapCandidate_inv hc
    have hlt : r1 % 4 < st.lines.length := by
      by_contra hge
      exact hne (getD_eq_default (by omega))
    have hfresh := findSwapCandidate_fresh hperm hc
    have happly : linesDisjoint
        (st.lines.set c.lineIndex
          ((st.lines.getD c.lineIndex []).take c.startIndex ++ c.newSkills ++
            (st.lines.getD c.lineIndex []).drop c.endIndex)) := by
      rw [hli]
      apply linesDisjoint_set hlt hd
      intro s hs
      rcases List.mem_append.mp hs with hs1 | hs1
      · rcases List.mem_append.mp hs1 with hs2 | hs2
        · left
          rw [← getD_eq_getElem hlt]
          exact List.mem_of_mem_take hs2
        · right
          exact fun l hl => hfresh s hs2 l hl
      · left
        rw [← getD_eq_getElem hlt]
        exact List.mem_of_mem_drop hs1
    rw [runSwap]
    by_cases h0 : anims 0 = true
    · rw [if_neg (by rw [h0]; simp)]
      by_cases h1 : anims 1 = true
      · rw [if_neg (by rw [h1]; simp)]
        by_cases h2 : anims 2 = true
        · rw [if_neg (by rw [h2]; simp)]
          rw [swapFinalStep_lines, swapRafStep_lines, swapExecStep_lines_true,
            swapFadeOutStep_lines, performSwapStart_lines_true]
          exact happly
        · rw [if_pos (by rw [Bool.not_eq_true] at h2; rw [h2]; rfl)]
          rw [swapExecStep_lines_false, swapFadeOutStep_lines, performSwapStart_lines_true]
          exact hd
      · rw [if_pos (by rw [Bool.not_eq_true] at h1; rw [h1]; rfl)]
        rw [swapFadeOutStep_lines, performSwapStart_lines_true]
        exact hd
    · rw [if_pos (by rw [Bool.not_eq_true] at h0; rw [h0]; rfl)]
      rw [performSwapStart_lines_false]
      exact happly

/-- Witness for C2: a full board fill on the demo inputs is disjoint, and
running the demo swap (replace A on line 0 by X) on the demo state keeps
the lines disjoint. -/
theorem skill_lines_partition_witness :
    linesDisjoint (fillAllLines ["A", "B", "X"] (fun _ => some 50) 10 110
      (fun _ l => l) (fun _ _ => 0)) ∧
    linesDisjoint ((runSwap (fun _ => true) demoState ⟨0, 0, 1, ["A"], ["X"]⟩).lines) :=
  ⟨skill_lines_partition.1 ["A", "B", "X"] (fun _ => some 50) 10 110
      (fun _ l => l) (fun _ _ => 0) (fun _ l => List.Perm.refl l),
    skill_lines_partition.2 demoState 0 0 0 id (fun _ => 0) ⟨0, 0, 1, ["A"], ["X"]⟩
      (fun _ => true) (fun l => List.Perm.refl l)
      (by rw [linesDisjoint]; decide) (by decide)⟩

/-- Counterexample to claim C3 at a concrete input. On the demo state the
search returns the candidate replacing A on line 0 by X. The swap starts
animated (flag true), then the flag is false at the start of the fade-out
phase. The resulting state has the lock released, but line 0 still shows A,
not the new label X, and the removed box still carries the highlighted
class: the new labels are not applied and a residual highlight remains. -/
theorem swap_abort_counterexample :
    findSwapCandidate demoState 0 0 0 id (fun _ => 0) =
      some ⟨0, 0, 1, ["A"], ["X"]⟩ ∧
    (swapFadeOutStep false (performSwapStart true demoState ⟨0, 0, 1, ["A"], ["X"]⟩)
        ⟨0, 0, 1, ["A"], ["X"]⟩).lineLocks = [false, false, false, false] ∧
    (swapFadeOutStep false (performSwapStart true demoState ⟨0, 0, 1, ["A"], ["X"]⟩)
        ⟨0, 0, 1, ["A"], ["X"]⟩).lines.getD 0 [] = ["A"] ∧
    ¬ ((swapFadeOutStep false (performSwapStart true demoState ⟨0, 0, 1, ["A"], ["X"]⟩)
        ⟨0, 0, 1, ["A"], ["X"]⟩).lines.getD 0 [] = ["X"]) ∧
    ((swapFadeOutStep false (performSwapStart true demoState ⟨0, 0, 1, ["A"], ["X"]⟩)
        ⟨0, 0, 1, ["A"], ["X"]⟩).lineElements.getD 0 []).any
      (fun b => b.highlighted) = true := by
  refine ⟨by decide, by decide, by decide, by decide, by decide⟩

/-- Claim C3 as amended: if the animations flag is false when the swap
starts (the check before the highlight phase), the swap completes instantly:
the new labels are applied, their boxes are visible with no highlight or
fading class, and the lock is released. If instead the flag turns false at
the start of the fade-out phase or of the swap phase of an in-flight swap,
only the line lock is released: the lines and the rendered boxes are left
exactly as they were, so the old labels stay displayed and keep whatever
highlight or fading classes they had. -/
theorem swap_abort_behavior (e : EngineState) (c : SwapCandidate) :
    ((performSwapStart false e c).lines =
        e.lines.set c.lineIndex
          ((e.lines.getD c.lineIndex []).take c.startIndex ++ c.newSkills ++
            (e.lines.getD c.lineIndex []).drop c.endIndex) ∧
      (performSwapStart false e c).lineElements =
        e.lineElements.set c.lineIndex
          ((e.lineElements.getD c.lineIndex []).take c.startIndex ++
            c.newSkills.map (fun s => { skill := s, visible := true }) ++
            (e.lineElements.getD c.lineIndex []).drop c.endIndex) ∧
      (performSwapStart false e c).lineLocks = e.lineLocks.set c.lineIndex false) ∧
    ((swapFadeOutStep false e c).lines = e.lines ∧
      (swapFadeOutStep false e c).lineElements = e.lineElements ∧
      (swapFadeOutStep false e c).lineLocks = e.lineLocks.set c.lineIndex false) ∧
    ((swapExecStep false e c).lines = e.lines ∧
      (swapExecStep false e c).lineElements = e.lineElements ∧
      (swapExecStep false e c).lineLocks = e.lineLocks.set c.lineIndex false) := by
  refine ⟨⟨?_, ?_, ?_⟩, ⟨?_, ?_, ?_⟩, ⟨?_, ?_, ?_⟩⟩ <;>
    simp [performSwapStart, executeSwap, createSkillBox, swapFadeOutStep,
      swapExecStep, List.set_set]

/-- Claim C7: a resize whose line-width change stays within the 50 pixel
threshold leaves the packed lines, the rendered boxes and the width cache
untouched and only restarts the scheduler (resetting the locks); a resize
beyond the threshold installs the fresh measurements, repacks all lines
with the new width and gap, re-renders them from scratch, and restarts the
scheduler. -/
theorem handleResize_threshold (e : EngineState) (containerWidth : Int)
    (gapRaw : Option Int) (newWidths : String → Option Int)
    (shuffle : Nat → List String → List String) (draws : Nat → Nat → Nat) :
    ((containerWidth - 32 - e.lineWidth).natAbs ≤ 50 →
      (handleResize e false containerWidth gapRaw newWidths shuffle draws).lines = e.lines ∧
      (handleResize e false containerWidth gapRaw newWidths shuffle draws).lineElements =
        e.lineElements ∧
      (handleResize e false containerWidth gapRaw newWidths shuffle draws).skillWidths =
        e.skillWidths ∧
      (handleResize e false containerWidth gapRaw newWidths shuffle draws).schedulerRunning =
        true ∧
      (handleResize e false containerWidth gapRaw newWidths shuffle draws).lineLocks =
        [false, false, false, false]) ∧
    (50 < (containerWidth - 32 - e.lineWidth).natAbs →
      (handleResize e false containerWidth gapRaw newWidths shuffle draws).skillWidths =
        newWidths ∧
      (handleResize e false containerWidth gapRaw newWidths shuffle draws).lines =
        fillAllLines e.allSkills newWidths (parsedGap gapRaw) (containerWidth - 32)
          shuffle draws ∧
      (handleResize e false containerWidth gapRaw newWidths shuffle draws).lineElements =
        (fillAllLines e.allSkills newWidths (parsedGap gapRaw) (containerWidth - 32)
          shuffle draws).map (fun l => l.map createSkillBox) ∧
      (handleResize e false containerWidth gapRaw newWidths shuffle draws).schedulerRunning =
        true ∧
      (handleResize e false containerWidth gapRaw newWidths shuffle draws).lineLocks =
        [false, false, false, false]) := by
  constructor
  · intro h
    have h2 : ¬ (50 < (containerWidth - 32 - e.lineWidth).natAbs) := by omega
    refine ⟨?_, ?_, ?_, ?_, ?_⟩ <;>
      simp [handleResize, stopAnimation, calculateLineWidth, startAnimation,
        measureAllSkills, render, h2]
  · intro h
    refine ⟨?_, ?_, ?_, ?_, ?_⟩ <;>
      simp [handleResize, stopAnimation, calculateLineWidth, startAnimation,
        measureAllSkills, render, h]

/-- Witness for C7 on the demo state (line width 110): a resize to container
width 150 changes the line width by 8 pixels and keeps the lines; a resize
to container width 300 changes it by 158 pixels and installs the repacked
lines. -/
theorem handleResize_threshold_witness :
    ((150 - 32 - demoState.lineWidth).natAbs ≤ 50 ∧
      (handleResize demoState false 150 none (fun _ => some 50) (fun _ l => l)
        (fun _ _ => 0)).lines = demoState.lines) ∧
    (50 < (300 - 32 - demoState.lineWidth).natAbs ∧
      (handleResize demoState false 300 none (fun _ => some 50) (fun _ l => l)
        (fun _ _ => 0)).lines =
        fillAllLines demoState.allSkills (fun _ => some 50) (parsedGap none) (300 - 32)
          (fun _ l => l) (fun _ _ => 0)) :=
  ⟨⟨by decide,
      ((handleResize_threshold demoState 150 none (fun _ => some 50) (fun _ l => l)
        (fun _ _ => 0)).1 (by decide)).1⟩,
    ⟨by decide,
      ((handleResize_threshold demoState 300 none (fun _ => some 50) (fun _ l => l)
        (fun _ _ => 0)).2 (by decide)).2.1⟩⟩

/-- Claim C8: the engine degrades silently on degenerate input. With an
empty pool fillLine returns the empty sequence with an attempt budget of 0
and the fill pass leaves all 4 lines empty; with a positive target width
smaller than every label width (such as width 40 against a single label of
width 50) fillLine returns empty after exhausting its budget without ever
hitting the 80 percent threshold; and with all lines empty findSwapCandidate
returns no candidate. -/
theorem degenerate_inputs_safe :
    (∀ (sw : String → Option Int) (gap lineWidth : Int) (draws : Nat → Nat),
      fillLine [] sw gap lineWidth draws = [] ∧
      (fillLineFull [] sw gap lineWidth draws).attemptsUsed = 0) ∧
    (∀ (sw : String → Option Int) (gap lineWidth : Int)
      (shuffle : Nat → List String → List String) (draws : Nat → Nat → Nat),
      fillAllLines [] sw gap lineWidth shuffle draws = [[], [], [], []]) ∧
    (∀ (shuffled : List String) (sw : String → Option Int) (gap lineWidth : Int)
      (draws : Nat → Nat),
      0 < lineWidth →
      (∀ s ∈ shuffled, lineWidth < getSkillWidth sw s) →
      fillLine shuffled sw gap lineWidth draws = [] ∧
      (fillLineFull shuffled sw gap lineWidth draws).stop = FillStop.budget ∧
      (fillLineFull shuffled sw gap lineWidth draws).attemptsUsed = shuffled.length * 3) ∧
    (∀ (st : EngineState) (r1 r2 r3 : Nat) (shuffle : List String → List String)
      (draws : Nat → Nat),
      st.lines = [[], [], [], []] →
      findSwapCandidate st r1 r2 r3 shuffle draws = none) := by
  refine ⟨fun sw gap lineWidth draws => ⟨rfl, rfl⟩, ?_, ?_, ?_⟩
  · intro sw gap lineWidth shuffle draws
    unfold fillAllLines
    rw [fillAllLinesGo, dif_pos (by norm_num)]
    simp only [List.filter_nil, List.isEmpty_nil, if_true]
    rfl
  · intro shuffled sw gap lineWidth draws hW hwide
    cases shuffled with
    | nil => exact ⟨rfl, rfl, rfl⟩
    | cons a t =>
      have hfull : fillLineFull (a :: t) sw gap lineWidth draws =
          ⟨[], 0, FillStop.budget, 0 + (a :: t).length * 3⟩ :=
        fillLineGo_all_too_wide (a :: t) sw gap lineWidth draws hW
          (by simp) hwide ((a :: t).length * 3) 0
      refine ⟨?_, ?_, ?_⟩
      · show (fillLineFull (a :: t) sw gap lineWidth draws).result = []
        rw [hfull]
      · rw [hfull]
      · rw [hfull]
        show 0 + (a :: t).length * 3 = (a :: t).length * 3
        omega
  · intro st r1 r2 r3 shuffle draws hlines
    simp only [findSwapCandidate]
    by_cases hl : st.lineLocks.getD (r1 % 4) false = true
    · rw [if_pos hl]
    · rw [if_neg hl]
      have hempty : st.lines.getD (r1 % 4) [] = [] := by
        have h4 : r1 % 4 < 4 := Nat.mod_lt _ (by norm_num)
        rw [hlines]
        set k := r1 % 4 with hk
        interval_cases k <;> rfl
      rw [if_pos (by rw [hempty]; rfl)]

/-- Witness for C8: the concrete 40 versus 50 scenario stops on budget with
an empty result, and on a state with 4 empty lines the candidate search
fails. -/
theorem degenerate_inputs_safe_witness :
    ((0 : Int) < 40 ∧ (∀ s ∈ ["A"], (40 : Int) < getSkillWidth (fun _ => some 50) s)) ∧
    fillLine ["A"] (fun _ => some 50) 10 40 (fun _ => 0) = [] ∧
    (fillLineFull ["A"] (fun _ => some 50) 10 40 (fun _ => 0)).stop = FillStop.budget ∧
    findSwapCandidate { demoState with lines := [[], [], [], []] } 0 0 0 id
      (fun _ => 0) = none :=
  ⟨⟨by decide, by decide⟩,
    (degenerate_inputs_safe.2.2.1 ["A"] (fun _ => some 50) 10 40 (fun _ => 0)
      (by decide) (by decide)).1,
    (degenerate_inputs_safe.2.2.1 ["A"] (fun _ => some 50) 10 40 (fun _ => 0)
      (by decide) (by decide)).2.1,
    degenerate_inputs_safe.2.2.2 { demoState with lines := [[], [], [], []] } 0 0 0 id
      (fun _ => 0) rfl⟩

lemma getSkillWidth_patch (sw : String → Option Int) :
    ∀ s, getSkillWidth (patchWidths sw) s = getSkillWidth sw s := by
  intro s
  cases hsw : sw s with
  | none => simp [getSkillWidth, patchWidths, hsw]
  | some w =>
    by_cases hw : w = 0 <;> simp [getSkillWidth, patchWidths, hsw, hw]

lemma fillLineFull_patch (shuffled : List String) (sw : String → Option Int)
    (gap lineWidth : Int) (draws : Nat → Nat) :
    fillLineFull shuffled (patchWidths sw) gap lineWidth draws =
      fillLineFull shuffled sw gap lineWidth draws := by
  unfold fillLineFull
  rw [funext (getSkillWidth_patch sw)]

lemma fillLine_patch (shuffled : List String) (sw : String → Option Int)
    (gap lineWidth : Int) (draws : Nat → Nat) :
    fillLine shuffled (patchWidths sw) gap lineWidth draws =
      fillLine shuffled sw gap lineWidth draws := by
  unfold fillLine
  rw [fillLineFull_patch]

lemma swapAvailableWidth_patch (st : EngineState) (li s e : Nat) :
    swapAvailableWidth { st with skillWidths := patchWidths st.skillWidths } li s e =
      swapAvailableWidth st li s e := by
  unfold swapAvailableWidth
  dsimp only
  rw [funext (getSkillWidth_patch st.skillWidths)]

/-- Claim C9: a label missing from the width cache or cached with width 0 is
treated as having width 100, not 0, throughout the packing and swap width
arithmetic: getSkillWidth yields 100 in both cases, and replacing all such
cache entries by an explicit 100 changes neither fillLine nor
findSwapCandidate. -/
theorem missing_width_defaults_to_100 :
    (∀ (sw : String → Option Int) (s : String), sw s = none → getSkillWidth sw s = 100) ∧
    (∀ (sw : String → Option Int) (s : String), sw s = some 0 → getSkillWidth sw s = 100) ∧
    (∀ (shuffled : List String) (sw : String → Option Int) (gap lineWidth : Int)
      (draws : Nat → Nat),
      fillLineFull shuffled (patchWidths sw) gap lineWidth draws =
        fillLineFull shuffled sw gap lineWidth draws) ∧
    (∀ (st : EngineState) (r1 r2 r3 : Nat) (shuffle : List String → List String)
      (draws : Nat → Nat),
      findSwapCandidate { st with skillWidths := patchWidths st.skillWidths } r1 r2 r3
        shuffle draws = findSwapCandidate st r1 r2 r3 shuffle draws) := by
  refine ⟨?_, ?_, fillLineFull_patch, ?_⟩
  · intro sw s h
    simp [getSkillWidth, h]
  · intro sw s h
    simp [getSkillWidth, h]
  · intro st r1 r2 r3 shuffle draws
    unfold findSwapCandidate
    dsimp only
    rw [swapAvailableWidth_patch]
    rw [show availablePool { st with skillWidths := patchWidths st.skillWidths } =
      availablePool st from rfl]
    rw [fillLine_patch]

/-- Witness for C9: a label absent from the cache and a label cached at 0
both measure 100. -/
theorem missing_width_defaults_to_100_witness :
    getSkillWidth (fun _ => none) "A" = 100 ∧
    getSkillWidth (fun _ => some 0) "A" = 100 :=
  ⟨missing_width_defaults_to_100.1 (fun _ => none) "A" rfl,
    missing_width_defaults_to_100.2.1 (fun _ => some 0) "A" rfl⟩

end Skills
